import Mathlib

/-!
Verification of the AgentDoor authentication middleware (server gate and
Python client SDK) against its specification.

The development shallowly embeds the relevant code:

* `agentdoor_fastapi/store.py` — the in-memory agent store (association
  lists standing in for Python dicts keyed by strings);
* `agentdoor_fastapi/middleware.py` — the register / verify / auth
  handlers and the `agent_required` protected-route guard;
* `agentgate_fastapi/crypto.py` — `is_timestamp_valid` (timestamp
  freshness) and the cost model of string comparison;
* `agentdoor/credentials.py` and `agentdoor/agent.py` — the client-side
  credential, `is_token_valid`, `authenticate` and `request`.

Randomness (`secrets.token_urlsafe`) is modelled by an explicit entropy
stream `rng : Nat → Nat` of bytes; wall-clock time (`time.time()`) by an
explicit `now : Int`; Ed25519 verification by an abstract boolean oracle;
the HTTP transport of the client by explicit response arguments.
-/

/-- Association-list lookup, modelling Python `dict.get`. -/
def lookupA {α : Type} : List (String × α) → String → Option α
  | [], _ => none
  | (k, v) :: rest, key => if key = k then some v else lookupA rest key

/-- Removal of a key, modelling Python `dict.pop` / `del`. -/
def eraseA {α : Type} : List (String × α) → String → List (String × α)
  | [], _ => []
  | (k, v) :: rest, key =>
      if key = k then eraseA rest key else (k, v) :: eraseA rest key

/-- Key update, modelling Python `d[k] = v`. -/
def insertA {α : Type} (m : List (String × α)) (k : String) (v : α) :
    List (String × α) :=
  (k, v) :: eraseA m k

theorem lookupA_eraseA {α : Type} (m : List (String × α)) (k key : String) :
    lookupA (eraseA m k) key = if key = k then none else lookupA m key := by
  induction m with
  | nil => by_cases h : key = k <;> simp [eraseA, lookupA, h]
  | cons hd tl ih =>
      obtain ⟨k0, v0⟩ := hd
      simp only [eraseA]
      by_cases h1 : k = k0
      · simp only [if_pos h1, ih, lookupA]
        by_cases h2 : key = k
        · simp [h2]
        · have hne : ¬ key = k0 := fun hh => h2 (hh.trans h1.symm)
          simp [h2, hne]
      · simp only [if_neg h1, lookupA]
        by_cases h2 : key = k0
        · have hne : ¬ key = k := fun hh => h1 (by rw [← hh, h2])
          have hne2 : ¬ k0 = k := fun hh => h1 hh.symm
          simp [h2, hne, hne2]
        · simp [h2, ih]

theorem lookupA_insertA {α : Type} (m : List (String × α)) (k key : String)
    (v : α) :
    lookupA (insertA m k v) key = if key = k then some v else lookupA m key := by
  by_cases h : key = k <;> simp [insertA, lookupA, h, lookupA_eraseA]

/-- The 64 characters of the URL-safe base64 alphabet. -/
def b64Chars : List Char :=
  ['A','B','C','D','E','F','G','H','I','J','K','L','M','N','O','P','Q','R',
   'S','T','U','V','W','X','Y','Z','a','b','c','d','e','f','g','h','i','j',
   'k','l','m','n','o','p','q','r','s','t','u','v','w','x','y','z','0','1',
   '2','3','4','5','6','7','8','9','-','_']

/-- Character of the URL-safe base64 alphabet at index `i` (indices produced
by `b64urlEncode` are always `< 64` for byte inputs; the `% 64` makes the
function total). -/
def b64urlChar (i : Nat) : Char := b64Chars.getD (i % 64) 'A'

/-- Whether a character belongs to the URL-safe base64 alphabet. -/
def isB64Char (c : Char) : Bool :=
  ('A' ≤ c && c ≤ 'Z') || ('a' ≤ c && c ≤ 'z') || ('0' ≤ c && c ≤ '9') ||
    c == '-' || c == '_'

/-- URL-safe base64 encoding of a byte list with padding stripped, the
string produced by
`base64.urlsafe_b64encode(data).rstrip(b"=").decode("ascii")`, which is
what `secrets.token_urlsafe` returns on the drawn bytes. -/
def b64urlEncode : List Nat → List Char
  | [] => []
  | [b1] => [b64urlChar (b1 / 4), b64urlChar (b1 % 4 * 16)]
  | [b1, b2] =>
      [b64urlChar (b1 / 4), b64urlChar (b1 % 4 * 16 + b2 / 16),
       b64urlChar (b2 % 16 * 4)]
  | b1 :: b2 :: b3 :: rest =>
      b64urlChar (b1 / 4) :: b64urlChar (b1 % 4 * 16 + b2 / 16) ::
      b64urlChar (b2 % 16 * 4 + b3 / 64) :: b64urlChar (b3 % 64) ::
      b64urlEncode rest

/-- `secrets.token_urlsafe` applied to an explicit list of entropy bytes. -/
def token_urlsafe (entropy : List Nat) : String :=
  String.mk (b64urlEncode entropy)

/-- `n` bytes drawn from the entropy stream `rng` starting at offset
`off`, modelling consecutive output of the CSPRNG. -/
def drawBytes (rng : Nat → Nat) (off n : Nat) : List Nat :=
  (List.range n).map (fun i => rng (off + i))

theorem b64urlChar_valid (i : Nat) : isB64Char (b64urlChar i) = true := by
  have hlt : i % 64 < b64Chars.length := by
    have : i % 64 < 64 := Nat.mod_lt _ (by decide)
    simpa [b64Chars] using this
  have hall : ∀ c ∈ b64Chars, isB64Char c = true := by decide
  have : b64Chars.getD (i % 64) 'A' = b64Chars.get ⟨i % 64, hlt⟩ := by
    simp [List.getD_eq_getElem?_getD, List.getElem?_eq_getElem hlt]
  rw [b64urlChar, this]
  exact hall _ (List.get_mem b64Chars _ hlt)

theorem b64urlEncode_valid :
    ∀ (bs : List Nat), ∀ c ∈ b64urlEncode bs, isB64Char c = true
  | [], c, h => by simp [b64urlEncode] at h
  | [b1], c, h => by
      simp only [b64urlEncode, List.mem_cons, List.not_mem_nil, or_false] at h
      rcases h with h | h <;> subst h <;> exact b64urlChar_valid _
  | [b1, b2], c, h => by
      simp only [b64urlEncode, List.mem_cons, List.not_mem_nil, or_false] at h
      rcases h with h | h | h <;> subst h <;> exact b64urlChar_valid _
  | b1 :: b2 :: b3 :: rest, c, h => by
      simp only [b64urlEncode, List.mem_cons] at h
      rcases h with h | h | h | h | h
      · subst h; exact b64urlChar_valid _
      · subst h; exact b64urlChar_valid _
      · subst h; exact b64urlChar_valid _
      · subst h; exact b64urlChar_valid _
      · exact b64urlEncode_valid rest c h

/-- `models.ScopeDefinition` — a permission scope offered by the service. -/
structure ScopeDefinition where
  name : String
  description : String
deriving DecidableEq

/-- `store.PendingRegistration` — a registration awaiting verification. -/
structure PendingRegistration where
  registration_id : String
  agent_name : String
  public_key : String
  challenge : String
  scopes : List String
  created_at : Int
deriving DecidableEq

/-- `store.AgentRecord` — a registered agent. -/
structure AgentRecord where
  agent_id : String
  agent_name : String
  public_key : String
  api_key : String
  scopes : List String
  created_at : Int
deriving DecidableEq

/-- `store.TokenRecord` — an issued bearer token. -/
structure TokenRecord where
  token : String
  agent_id : String
  expires_at : Int
  scopes : List String
deriving DecidableEq

/-- `store.InMemoryAgentStore` — the four dicts of the in-memory store. -/
structure InMemoryAgentStore where
  pending : List (String × PendingRegistration)
  agents : List (String × AgentRecord)
  agents_by_api_key : List (String × AgentRecord)
  tokens : List (String × TokenRecord)
deriving DecidableEq

/-- `InMemoryAgentStore.__init__` — all dicts empty. -/
def emptyStore : InMemoryAgentStore := ⟨[], [], [], []⟩

/-- Outcome of a FastAPI handler: a 200 body, or an `HTTPException`
carrying a status code and a detail string. -/
inductive HttpResult (α : Type) where
  | ok (body : α)
  | httpError (status : Nat) (detail : String)
deriving DecidableEq

/-- Number of entropy bytes `InMemoryAgentStore.create_pending_registration`
draws for `registration_id`: the code calls `secrets.token_urlsafe(16)`. -/
def regIdEntropyBytes : Nat := 16

/-- Number of entropy bytes drawn for `challenge`: the code calls
`secrets.token_urlsafe(32)`. -/
def challengeEntropyBytes : Nat := 32

/-- `InMemoryAgentStore.create_pending_registration`.  The CSPRNG is the
byte stream `rng`; `registration_id` consumes its first
`regIdEntropyBytes` bytes, `challenge` the following
`challengeEntropyBytes` bytes; `now` is `time.time()`. -/
def create_pending_registration (st : InMemoryAgentStore)
    (agent_name public_key : String) (scopes : List String)
    (rng : Nat → Nat) (now : Int) :
    PendingRegistration × InMemoryAgentStore :=
  let registration_id := "reg_" ++ token_urlsafe (drawBytes rng 0 regIdEntropyBytes)
  let challenge := token_urlsafe (drawBytes rng regIdEntropyBytes challengeEntropyBytes)
  let pending : PendingRegistration :=
    ⟨registration_id, agent_name, public_key, challenge, scopes, now⟩
  (pending, { st with pending := insertA st.pending registration_id pending })

/-- `InMemoryAgentStore.get_pending_registration`. -/
def get_pending_registration (st : InMemoryAgentStore)
    (registration_id : String) : Option PendingRegistration :=
  lookupA st.pending registration_id

/-- `InMemoryAgentStore.complete_registration`.  `self._pending.pop(id)`
raises `KeyError` when the id is absent, modelled by `Except.error`;
`agent_id` consumes 12 entropy bytes and `api_key` the following 24
(`secrets.token_urlsafe(12)` / `(24)`). -/
def complete_registration (st : InMemoryAgentStore)
    (registration_id : String) (rng : Nat → Nat) (now : Int) :
    Except String (AgentRecord × InMemoryAgentStore) :=
  match lookupA st.pending registration_id with
  | none => .error "KeyError"
  | some pending =>
      let agent_id := "agent_" ++ token_urlsafe (drawBytes rng 0 12)
      let api_key := "ak_" ++ token_urlsafe (drawBytes rng 12 24)
      let record : AgentRecord :=
        ⟨agent_id, pending.agent_name, pending.public_key, api_key,
         pending.scopes, now⟩
      .ok (record,
        { st with
          pending := eraseA st.pending registration_id,
          agents := insertA st.agents agent_id record,
          agents_by_api_key := insertA st.agents_by_api_key api_key record })

/-- `InMemoryAgentStore.get_agent`. -/
def get_agent (st : InMemoryAgentStore) (agent_id : String) :
    Option AgentRecord :=
  lookupA st.agents agent_id

/-- `InMemoryAgentStore.store_token`. -/
def store_token (st : InMemoryAgentStore) (tr : TokenRecord) :
    InMemoryAgentStore :=
  { st with tokens := insertA st.tokens tr.token tr }

/-- `InMemoryAgentStore.get_token` with `time.time()` passed as `now`:
a record strictly past its `expires_at` is deleted and reported absent. -/
def get_token (st : InMemoryAgentStore) (token : String) (now : Int) :
    Option TokenRecord × InMemoryAgentStore :=
  match lookupA st.tokens token with
  | none => (none, st)
  | some record =>
      if now > record.expires_at then
        (none, { st with tokens := eraseA st.tokens token })
      else
        (some record, st)

/-- `middleware.AgentDoorConfig` (the fields the handlers read). -/
structure AgentDoorConfig where
  scopes : List ScopeDefinition
  token_ttl_seconds : Int
  max_timestamp_drift : Int
deriving DecidableEq

/-- `models.RegistrationRequest`. -/
structure RegistrationRequest where
  agent_name : String
  public_key : String
  scopes : List String
deriving DecidableEq

/-- `models.RegistrationResponse`. -/
structure RegistrationResponse where
  registration_id : String
  challenge : String
deriving DecidableEq

/-- `models.VerifyRequest`. -/
structure VerifyRequest where
  registration_id : String
  challenge : String
  signature : String
deriving DecidableEq

/-- `models.VerifyResponse`. -/
structure VerifyResponse where
  agent_id : String
  api_key : String
deriving DecidableEq

/-- `models.AuthRequest`. -/
structure AuthRequest where
  agent_id : String
  api_key : String
  timestamp : String
  signature : String
deriving DecidableEq

/-- `models.AuthResponse`. -/
structure AuthResponse where
  token : String
  expires_in : Int
deriving DecidableEq

/-- `models.AgentContext`. -/
structure AgentContext where
  agent_id : String
  agent_name : String
  scopes : List String
deriving DecidableEq

/-- Insertion of a string into a sorted list, ascending. -/
def insortStr (x : String) : List String → List String
  | [] => [x]
  | y :: ys => if x ≤ y then x :: y :: ys else y :: insortStr x ys

/-- Insertion sort on strings, modelling Python `sorted` on a set of
strings (ascending lexicographic order on code points). -/
def pySorted : List String → List String
  | [] => []
  | x :: xs => insortStr x (pySorted xs)

/-- Python `sorted(set(xs))`: duplicates removed, ascending order. -/
def pySortedSet (xs : List String) : List String :=
  pySorted xs.dedup

/-- `', '.join(names)`. -/
def joinComma (names : List String) : String :=
  String.intercalate ", " names

/-- Whitespace as CPython's `Py_UNICODE_ISSPACE` classifies it, the set
`int()` strips from both ends of its argument: ASCII 09–0D and 1C–20,
NEL, NBSP, Ogham space, the U+2000–200A spaces, LS, PS, NNBSP, MMSP and
ideographic space. -/
def pyIsSpace (c : Char) : Bool :=
  let n := c.toNat
  (decide (0x09 ≤ n) && decide (n ≤ 0x0D)) ||
  (decide (0x1C ≤ n) && decide (n ≤ 0x1F)) ||
  n == 0x20 || n == 0x85 || n == 0xA0 || n == 0x1680 ||
  (decide (0x2000 ≤ n) && decide (n ≤ 0x200A)) ||
  n == 0x2028 || n == 0x2029 || n == 0x202F || n == 0x205F || n == 0x3000

/-- First code points of the Unicode `Nd` (decimal digit) ranges; each
range holds the digits 0–9 at ten consecutive code points.  These are
the digits Python's `int()` accepts (ASCII, Arabic-Indic, Devanagari,
fullwidth, mathematical, and the other Nd scripts). -/
def ndRangeStarts : List Nat :=
  [0x30, 0x660, 0x6F0, 0x7C0, 0x966, 0x9E6, 0xA66, 0xAE6, 0xB66, 0xBE6,
   0xC66, 0xCE6, 0xD66, 0xDE6, 0xE50, 0xED0, 0xF20, 0x1040, 0x1090,
   0x17E0, 0x1810, 0x1946, 0x19D0, 0x1A80, 0x1A90, 0x1B50, 0x1BB0,
   0x1C40, 0x1C50, 0xA620, 0xA8D0, 0xA900, 0xA9D0, 0xA9F0, 0xAA50,
   0xABF0, 0xFF10, 0x104A0, 0x10D30, 0x11066, 0x110F0, 0x11136, 0x111D0,
   0x112F0, 0x11450, 0x114D0, 0x11650, 0x116C0, 0x11730, 0x118E0,
   0x11950, 0x11C50, 0x11D50, 0x11DA0, 0x11F50, 0x16A60, 0x16AC0,
   0x16B50, 0x1D7CE, 0x1D7D8, 0x1D7E2, 0x1D7EC, 0x1D7F6, 0x1E140,
   0x1E2F0, 0x1E4F0, 0x1E950, 0x1FBF0]

/-- The decimal value of a Unicode digit character, `none` for
non-digits — Python's per-character digit lookup. -/
def pyDigitVal (c : Char) : Option Nat :=
  (ndRangeStarts.find?
    (fun b => decide (b ≤ c.toNat) && decide (c.toNat < b + 10))).map
    (fun b => c.toNat - b)

/-- Leading and trailing whitespace stripped, as `int()` does before
parsing. -/
def pyStripWs (cs : List Char) : List Char :=
  ((cs.dropWhile pyIsSpace).reverse.dropWhile pyIsSpace).reverse

/-- Continuation of a digit run: Python's `digitpart` grammar
`digit (["_"] digit)*` — a single underscore may separate two digits,
never lead, trail or repeat. -/
def pyDigitsAux : List Char → Nat → Option Nat
  | [], acc => some acc
  | '_' :: c :: cs, acc =>
      match pyDigitVal c with
      | some d => pyDigitsAux cs (acc * 10 + d)
      | none => none
  | ['_'], _ => none
  | c :: cs, acc =>
      match pyDigitVal c with
      | some d => pyDigitsAux cs (acc * 10 + d)
      | none => none

/-- Value of a complete digit run (which must start with a digit). -/
def pyDigitsVal : List Char → Option Nat
  | [] => none
  | c :: cs =>
      match pyDigitVal c with
      | some d => pyDigitsAux cs d
      | none => none

/-- Python `int(s)`: strip whitespace from both ends, allow one optional
sign, then a run of Unicode decimal digits with single underscores
permitted between digits; anything else fails to parse. -/
def pyParseInt (s : String) : Option Int :=
  match pyStripWs s.data with
  | '-' :: rest => (pyDigitsVal rest).map (fun n => -(n : Int))
  | '+' :: rest => (pyDigitsVal rest).map (fun n => (n : Int))
  | rest => (pyDigitsVal rest).map (fun n => (n : Int))

/-- `crypto.is_timestamp_valid` with `time.time()` passed as `now`:
false when the string does not parse as an integer, else whether
`abs(now - ts) <= max_drift_seconds`. -/
def is_timestamp_valid (timestamp : String) (max_drift_seconds : Int)
    (now : Int) : Bool :=
  match pyParseInt timestamp with
  | none => false
  | some ts => decide (|now - ts| ≤ max_drift_seconds)

/-- Cost model of the interpreter's short-circuit string comparison
(`==`/`!=` on equal-length strings): the number of character cells
inspected before the comparison can stop. -/
def strCmpSteps : List Char → List Char → Nat
  | [], _ => 0
  | _ :: _, [] => 0
  | a :: as, b :: bs => if a = b then 1 + strCmpSteps as bs else 1

/-- `AgentDoor._handle_register`.  `rng` is the CSPRNG byte stream the
store draws from, `now` is `time.time()`. -/
def handleRegister (cfg : AgentDoorConfig) (st : InMemoryAgentStore)
    (body : RegistrationRequest) (rng : Nat → Nat) (now : Int) :
    HttpResult RegistrationResponse × InMemoryAgentStore :=
  let available := cfg.scopes.map (fun s => s.name)
  let invalid := pySortedSet (body.scopes.filter (fun s => decide (s ∉ available)))
  if available ≠ [] ∧ invalid ≠ [] then
    (.httpError 400 ("Invalid scopes: " ++ joinComma invalid), st)
  else
    let (pending, st') :=
      create_pending_registration st body.agent_name body.public_key
        body.scopes rng now
    (.ok ⟨pending.registration_id, pending.challenge⟩, st')

/-- `AgentDoor._handle_verify`.  `verifySig` is the Ed25519 oracle
`verify_signature(message, signature_b64, public_key_b64)`; the
`KeyError` that `complete_registration` would raise surfaces as an
unhandled 500, which `handleVerify_total` below proves unreachable. -/
def handleVerify (st : InMemoryAgentStore) (body : VerifyRequest)
    (verifySig : String → String → String → Bool) (rng : Nat → Nat)
    (now : Int) : HttpResult VerifyResponse × InMemoryAgentStore :=
  match get_pending_registration st body.registration_id with
  | none => (.httpError 404 "Registration not found or expired", st)
  | some pending =>
      if body.challenge ≠ pending.challenge then
        (.httpError 400 "Challenge mismatch", st)
      else if ¬ verifySig body.challenge body.signature pending.public_key then
        (.httpError 401 "Invalid signature", st)
      else
        match complete_registration st body.registration_id rng now with
        | .error _ => (.httpError 500 "Internal Server Error", st)
        | .ok (record, st') => (.ok ⟨record.agent_id, record.api_key⟩, st')

/-- `AgentDoor._handle_auth`.  The api-key check is the Python `!=` on
the stored and submitted strings; the freshly minted token draws 32
entropy bytes (`secrets.token_urlsafe(32)`). -/
def handleAuth (cfg : AgentDoorConfig) (st : InMemoryAgentStore)
    (body : AuthRequest) (verifySig : String → String → String → Bool)
    (rng : Nat → Nat) (now : Int) :
    HttpResult AuthResponse × InMemoryAgentStore :=
  match get_agent st body.agent_id with
  | none => (.httpError 401 "Unknown agent", st)
  | some agent =>
      if agent.api_key ≠ body.api_key then
        (.httpError 401 "Invalid API key", st)
      else if ¬ is_timestamp_valid body.timestamp cfg.max_timestamp_drift now then
        (.httpError 401 "Timestamp outside acceptable range", st)
      else if ¬ verifySig body.timestamp body.signature agent.public_key then
        (.httpError 401 "Invalid signature", st)
      else
        let token := "agt_" ++ token_urlsafe (drawBytes rng 0 32)
        let expires_at := now + cfg.token_ttl_seconds
        let tr : TokenRecord := ⟨token, agent.agent_id, expires_at, agent.scopes⟩
        (.ok ⟨token, cfg.token_ttl_seconds⟩, store_token st tr)

/-- Python `s.startswith(pre)`. -/
def pyStartswith (s pre : String) : Bool :=
  pre.data.isPrefixOf s.data

/-- Python slice `s[n:]`. -/
def pySliceFrom (s : String) (n : Nat) : String :=
  String.mk (s.data.drop n)

/-- The dependency produced by `AgentDoor.agent_required(scopes)` applied
to one request whose `Authorization` header is `authHeader` (`none` when
the header is absent); `scopes = none` models passing no scope list.
Python truthiness of `if not auth_header` and `if scopes` is made
explicit. -/
def agentRequired (st : InMemoryAgentStore) (scopes : Option (List String))
    (authHeader : Option String) (now : Int) :
    HttpResult AgentContext × InMemoryAgentStore :=
  let header := authHeader.getD ""
  if header = "" ∨ ¬ pyStartswith header "Bearer " then
    (.httpError 401 "Missing or invalid Authorization header", st)
  else
    let token := pySliceFrom header 7
    match get_token st token now with
    | (none, st') => (.httpError 401 "Invalid or expired token", st')
    | (some token_record, st') =>
        let reqScopes := scopes.getD []
        let missing :=
          pySortedSet (reqScopes.filter
            (fun s => decide (s ∉ token_record.scopes)))
        if reqScopes ≠ [] ∧ missing ≠ [] then
          (.httpError 403
            ("Missing required scopes: " ++ joinComma missing), st')
        else
          match get_agent st' token_record.agent_id with
          | none => (.httpError 401 "Agent not found", st')
          | some agent =>
              (.ok ⟨agent.agent_id, agent.agent_name, token_record.scopes⟩, st')

/-- `credentials.Credential` — the client-side stored credential. -/
structure Credential where
  service_url : String
  agent_id : String
  public_key : String
  secret_key : String
  api_key : Option String
  token : Option String
  token_expires_at : Option Int
  scopes : List String
deriving DecidableEq

/-- `Credential.is_token_valid` with the current time passed explicitly:
false when token or expiry is absent, else `now < token_expires_at - 30`
(the 30-second safety margin). -/
def Credential.is_token_valid (c : Credential) (now : Int) : Bool :=
  match c.token, c.token_expires_at with
  | some _, some e => decide (now < e - 30)
  | _, _ => false

/-- The JSON body `Agent.authenticate` posts to the auth endpoint. -/
structure AuthPayload where
  agent_id : String
  api_key : String
  timestamp : String
  signature : String
deriving DecidableEq

/-- The server's auth response as the client reads it:
`auth_data["token"]` and the optional `auth_data.get("expires_in", ...)`. -/
structure AuthServerResponse where
  token : String
  expires_in : Option Int
deriving DecidableEq

/-- Observable outcome of one `Agent.authenticate` call: either the
cached token was returned with no network round-trip, or the payload was
posted and the credential updated to `newCred` (and saved to the
credential store) with the fresh token returned. -/
inductive AuthOutcome where
  | cached (token : String)
  | refreshed (payload : AuthPayload) (newCred : Credential) (token : String)
deriving DecidableEq

/-- `Agent.authenticate`.  `discovery_ttl` is the discovery document's
`token_ttl_seconds`, `now` is `time.time()` (integer model), `sign` is
`sign_message(message, secret_key_b64)`, and `resp` is the parsed JSON
body of the server's auth response; a missing `api_key` raises
`RuntimeError`, modelled as `Except.error`. -/
def Agent.authenticate (cred : Credential) (discovery_ttl : Int) (now : Int)
    (sign : String → String → String) (resp : AuthServerResponse) :
    Except String AuthOutcome :=
  match cred.api_key with
  | none => .error "Must call register() before authenticate()"
  | some ak =>
      if cred.is_token_valid now then
        .ok (.cached (cred.token.getD ""))
      else
        let timestamp := toString now
        let signature := sign timestamp cred.secret_key
        let payload : AuthPayload := ⟨cred.agent_id, ak, timestamp, signature⟩
        let expires_in := resp.expires_in.getD discovery_ttl
        let newCred :=
          { cred with
            token := some resp.token,
            token_expires_at := some (now + expires_in) }
        .ok (.refreshed payload newCred resp.token)

/-- An `httpx.Response` as far as the retry logic observes it. -/
structure HttpxResponse where
  status_code : Nat
  body : String
deriving DecidableEq

/-- The token returned by an `authenticate` outcome. -/
def authToken : AuthOutcome → String
  | .cached t => t
  | .refreshed _ _ t => t

/-- The credential state after an `authenticate` outcome. -/
def authCredAfter (cred : Credential) : AuthOutcome → Credential
  | .cached _ => cred
  | .refreshed _ c _ => c

/-- The 401-refresh branch of `Agent.request`: clear the cached token
and its expiry on the credential. -/
def clearToken (c : Credential) : Credential :=
  { c with token := none, token_expires_at := none }

/-- `Agent.request`.  `authResp i` is the server's auth-endpoint response
to the `i`-th `authenticate` round-trip and `send i tok` the response to
the `i`-th attempt of the actual request carrying bearer token `tok`.
Returns the trace of bearer tokens attached (one entry per attempt), the
response returned to the caller, and the final credential state. -/
def Agent.request (cred : Credential) (discovery_ttl : Int) (now : Int)
    (sign : String → String → String) (authResp : Nat → AuthServerResponse)
    (send : Nat → String → HttpxResponse) :
    Except String (List String × HttpxResponse × Credential) :=
  match Agent.authenticate cred discovery_ttl now sign (authResp 0) with
  | .error e => .error e
  | .ok o1 =>
      let t1 := authToken o1
      let c1 := authCredAfter cred o1
      let resp1 := send 0 t1
      if resp1.status_code = 401 then
        match Agent.authenticate (clearToken c1) discovery_ttl now sign
            (authResp 1) with
        | .error e => .error e
        | .ok o2 =>
            let t2 := authToken o2
            let c2 := authCredAfter (clearToken c1) o2
            .ok ([t1, t2], send 1 t2, c2)
      else
        .ok ([t1], resp1, c1)

theorem mem_insortStr (a x : String) (l : List String) :
    a ∈ insortStr x l ↔ a = x ∨ a ∈ l := by
  induction l with
  | nil => simp [insortStr]
  | cons y ys ih =>
      by_cases h : x ≤ y
      · simp [insortStr, h]
      · simp [insortStr, h, ih]
        tauto

theorem sorted_insortStr (x : String) {l : List String}
    (hl : l.Sorted (· ≤ ·)) : (insortStr x l).Sorted (· ≤ ·) := by
  induction l with
  | nil => simp [insortStr]
  | cons y ys ih =>
      rw [List.sorted_cons] at hl
      obtain ⟨hy, hys⟩ := hl
      by_cases h : x ≤ y
      · rw [insortStr, if_pos h, List.sorted_cons]
        refine ⟨?_, ?_⟩
        · intro b hb
          rcases List.mem_cons.mp hb with rfl | hb
          · exact h
          · exact le_trans h (hy b hb)
        · rw [List.sorted_cons]; exact ⟨hy, hys⟩
      · rw [insortStr, if_neg h, List.sorted_cons]
        refine ⟨?_, ih hys⟩
        intro b hb
        rcases (mem_insortStr b x ys).mp hb with rfl | hb
        · exact le_of_not_le h
        · exact hy b hb

theorem sorted_pySorted (l : List String) : (pySorted l).Sorted (· ≤ ·) := by
  induction l with
  | nil => simp [pySorted]
  | cons x xs ih => exact sorted_insortStr x ih

theorem mem_pySorted (a : String) (l : List String) :
    a ∈ pySorted l ↔ a ∈ l := by
  induction l with
  | nil => simp [pySorted]
  | cons x xs ih => simp [pySorted, mem_insortStr, ih]

theorem sorted_pySortedSet (l : List String) :
    (pySortedSet l).Sorted (· ≤ ·) :=
  sorted_pySorted _

theorem mem_pySortedSet (a : String) (l : List String) :
    a ∈ pySortedSet l ↔ a ∈ l := by
  simp [pySortedSet, mem_pySorted, List.mem_dedup]

theorem pyStartswith_bearer (t : String) :
    pyStartswith ("Bearer " ++ t) "Bearer " = true := by
  simp only [pyStartswith, String.data_append, List.isPrefixOf_iff_prefix]
  exact List.prefix_append _ _

theorem bearer_ne_empty (t : String) : ("Bearer " ++ t) ≠ "" := by
  intro h
  have hlen := congrArg String.length h
  rw [String.length_append] at hlen
  have h7 : "Bearer ".length = 7 := rfl
  have h0 : String.length "" = 0 := rfl
  rw [h7, h0] at hlen
  omega

theorem pySliceFrom_bearer (t : String) : pySliceFrom ("Bearer " ++ t) 7 = t := by
  rw [pySliceFrom, String.data_append,
    List.drop_left' (show ("Bearer ".data).length = 7 from rfl)]

/-- C4: a token lookup finding a record whose `expires_at` is strictly in
the past returns `none` and removes the record in that same lookup;
consequently the protected-route guard answers 401 "Invalid or expired
token" for that token and a subsequent `get_token` returns `none`. -/
theorem get_token_lazy_eviction
    (st : InMemoryAgentStore) (token : String) (r : TokenRecord) (now : Int)
    (hlook : lookupA st.tokens token = some r)
    (hexp : r.expires_at < now) :
    (get_token st token now).1 = none ∧
    lookupA (get_token st token now).2.tokens token = none ∧
    (get_token (get_token st token now).2 token now).1 = none ∧
    (agentRequired st none (some ("Bearer " ++ token)) now).1 =
      .httpError 401 "Invalid or expired token" ∧
    lookupA (agentRequired st none (some ("Bearer " ++ token)) now).2.tokens
      token = none := by
  have hgt : get_token st token now =
      (none, { st with tokens := eraseA st.tokens token }) := by
    simp [get_token, hlook, hexp]
  have herase : lookupA (eraseA st.tokens token) token = none := by
    rw [lookupA_eraseA]; simp
  have hreq : agentRequired st none (some ("Bearer " ++ token)) now =
      (.httpError 401 "Invalid or expired token",
       { st with tokens := eraseA st.tokens token }) := by
    rw [agentRequired]
    simp only [Option.getD_some]
    rw [if_neg (by simp [bearer_ne_empty, pyStartswith_bearer]),
      pySliceFrom_bearer, hgt]
  refine ⟨by rw [hgt], by rw [hgt]; exact herase, ?_, by rw [hreq], ?_⟩
  · rw [hgt]; simp [get_token, herase]
  · rw [hreq]; exact herase

def tokenC4 : TokenRecord := ⟨"agt_tok4", "agent_4", 100, ["read"]⟩

def storeC4 : InMemoryAgentStore := ⟨[], [], [], [("agt_tok4", tokenC4)]⟩

theorem get_token_lazy_eviction_witness :
    (get_token storeC4 "agt_tok4" 101).1 = none ∧
    lookupA (get_token storeC4 "agt_tok4" 101).2.tokens "agt_tok4" = none ∧
    (agentRequired storeC4 none (some ("Bearer " ++ "agt_tok4")) 101).1 =
      .httpError 401 "Invalid or expired token" := by
  obtain ⟨h1, h2, _, h4, _⟩ :=
    get_token_lazy_eviction storeC4 "agt_tok4" tokenC4 101 rfl (by decide)
  exact ⟨h1, h2, h4⟩

/-- C5: `is_timestamp_valid` is false on a string that does not parse as
a signed integer and otherwise true exactly when `|now − parsed| ≤`
the drift bound; when the freshness check fails on a known agent with a
matching api_key, the auth handler answers 401 "Timestamp outside
acceptable range". -/
theorem is_timestamp_valid_spec (s : String) (d now : Int) :
    (pyParseInt s = none → is_timestamp_valid s d now = false) ∧
    (∀ ts, pyParseInt s = some ts →
      (is_timestamp_valid s d now = true ↔ |now - ts| ≤ d)) ∧
    (∀ (cfg : AgentDoorConfig) (st : InMemoryAgentStore) (body : AuthRequest)
        (verifySig : String → String → String → Bool) (rng : Nat → Nat)
        (agent : AgentRecord),
      get_agent st body.agent_id = some agent →
      agent.api_key = body.api_key →
      is_timestamp_valid body.timestamp cfg.max_timestamp_drift now = false →
      (handleAuth cfg st body verifySig rng now).1 =
        .httpError 401 "Timestamp outside acceptable range") := by
  refine ⟨?_, ?_, ?_⟩
  · intro h; simp [is_timestamp_valid, h]
  · intro ts h; simp [is_timestamp_valid, h]
  · intro cfg st body verifySig rng agent hagent hkey hts
    simp [handleAuth, hagent, hkey, hts]

def agentC5 : AgentRecord := ⟨"agent_5", "a5", "pk5", "ak_5", [], 0⟩

def storeC5 : InMemoryAgentStore := ⟨[], [("agent_5", agentC5)], [("ak_5", agentC5)], []⟩

def bodyC5 : AuthRequest := ⟨"agent_5", "ak_5", "9999", "sig"⟩

theorem is_timestamp_valid_spec_witness :
    is_timestamp_valid "abc" 300 1000 = false ∧
    (is_timestamp_valid "1010" 300 1000 = true ↔ |(1000 : Int) - 1010| ≤ 300) ∧
    is_timestamp_valid " 100" 300 100 = true ∧
    is_timestamp_valid "1_0" 300 10 = true ∧
    is_timestamp_valid "٥٠" 300 50 = true ∧
    is_timestamp_valid "1__0" 300 10 = false ∧
    (handleAuth ⟨[], 3600, 300⟩ storeC5 bodyC5 (fun _ _ _ => true)
        (fun _ => 0) 0).1 =
      .httpError 401 "Timestamp outside acceptable range" := by
  refine ⟨(is_timestamp_valid_spec "abc" 300 1000).1 (by decide),
    (is_timestamp_valid_spec "1010" 300 1000).2.1 1010 (by decide),
    ((is_timestamp_valid_spec " 100" 300 100).2.1 100 (by decide)).mpr
      (by decide),
    ((is_timestamp_valid_spec "1_0" 300 10).2.1 10 (by decide)).mpr
      (by decide),
    ((is_timestamp_valid_spec "٥٠" 300 50).2.1 50 (by decide)).mpr
      (by decide),
    (is_timestamp_valid_spec "1__0" 300 10).1 (by decide), ?_⟩
  exact (is_timestamp_valid_spec "9999" 300 0).2.2 ⟨[], 3600, 300⟩ storeC5
    bodyC5 (fun _ _ _ => true) (fun _ => 0) agentC5 rfl rfl (by decide)

/-- C10: `complete_registration` is partial at its interface — it fails
(`KeyError`) whenever no pending registration exists for the id, and
under the precondition that one exists it returns an `AgentRecord`
carried over from the pending entry while removing that entry; the
verify handler establishes the precondition, so its internal-error
branch is unreachable for every input. -/
theorem complete_registration_raises_or_consumes
    (st : InMemoryAgentStore) (rid : String) (rng : Nat → Nat) (now : Int) :
    (lookupA st.pending rid = none →
      complete_registration st rid rng now = .error "KeyError") ∧
    (∀ p, lookupA st.pending rid = some p →
      ∃ rec st',
        complete_registration st rid rng now = .ok (rec, st') ∧
        lookupA st'.pending rid = none ∧
        rec.agent_name = p.agent_name ∧
        rec.public_key = p.public_key ∧
        rec.scopes = p.scopes) ∧
    (∀ (body : VerifyRequest) (verifySig : String → String → String → Bool)
        (d : String),
      (handleVerify st body verifySig rng now).1 ≠ .httpError 500 d) := by
  refine ⟨?_, ?_, ?_⟩
  · intro h; simp [complete_registration, h]
  · intro p h
    have hcr : complete_registration st rid rng now =
        .ok (⟨"agent_" ++ token_urlsafe (drawBytes rng 0 12), p.agent_name,
              p.public_key, "ak_" ++ token_urlsafe (drawBytes rng 12 24),
              p.scopes, now⟩,
             { st with
               pending := eraseA st.pending rid,
               agents := insertA st.agents
                 ("agent_" ++ token_urlsafe (drawBytes rng 0 12))
                 ⟨"agent_" ++ token_urlsafe (drawBytes rng 0 12), p.agent_name,
                  p.public_key, "ak_" ++ token_urlsafe (drawBytes rng 12 24),
                  p.scopes, now⟩,
               agents_by_api_key := insertA st.agents_by_api_key
                 ("ak_" ++ token_urlsafe (drawBytes rng 12 24))
                 ⟨"agent_" ++ token_urlsafe (drawBytes rng 0 12), p.agent_name,
                  p.public_key, "ak_" ++ token_urlsafe (drawBytes rng 12 24),
                  p.scopes, now⟩ }) := by
      simp [complete_registration, h]
    exact ⟨_, _, hcr, by simp [lookupA_eraseA], rfl, rfl, rfl⟩
  · intro body verifySig d
    rw [handleVerify]
    rcases hl : get_pending_registration st body.registration_id with _ | p
    · simp
    · have hcr : ∃ rs, complete_registration st body.registration_id rng now =
          .ok rs := by
        simp [complete_registration,
          show lookupA st.pending body.registration_id = some p from hl]
      obtain ⟨⟨rec, st'⟩, hrs⟩ := hcr
      by_cases hc : body.challenge = p.challenge
      · by_cases hs : verifySig body.challenge body.signature p.public_key = true
        · rw [hc] at hs
          simp [hc, hs, hrs]
        · rw [hc] at hs
          rw [Bool.not_eq_true] at hs
          simp [hc, hs]
      · simp [hc]

def pendC10 : PendingRegistration := ⟨"reg_c10", "a10", "pk10", "ch10", [], 0⟩

def storeC10 : InMemoryAgentStore := ⟨[("reg_c10", pendC10)], [], [], []⟩

theorem complete_registration_raises_or_consumes_witness :
    complete_registration emptyStore "reg_missing" (fun _ => 0) 0 =
      .error "KeyError" ∧
    ∃ rec st',
      complete_registration storeC10 "reg_c10" (fun _ => 0) 0 =
        .ok (rec, st') ∧
      lookupA st'.pending "reg_c10" = none := by
  constructor
  · exact (complete_registration_raises_or_consumes emptyStore "reg_missing"
      (fun _ => 0) 0).1 rfl
  · obtain ⟨rec, st', h, hnone, _, _, _⟩ :=
      (complete_registration_raises_or_consumes storeC10 "reg_c10"
        (fun _ => 0) 0).2.1 pendC10 rfl
    exact ⟨rec, st', h, hnone⟩

def agentC3 : AgentRecord :=
  ⟨"agent_3", "a3", "pk3", "ak_secret000", ["read"], 0⟩

def storeC3 : InMemoryAgentStore :=
  ⟨[], [("agent_3", agentC3)], [("ak_secret000", agentC3)], []⟩

def bodyC3 : AuthRequest := ⟨"agent_3", "Xk_secret000", "0", "sig"⟩

/-- C3: the auth endpoint compares the submitted api_key against the
stored one with the interpreter's ordinary `!=`, a short-circuit
comparison, not a constant-time one: for two same-length wrong keys the
number of character cells inspected is 1 when the first byte differs
and 12 (the whole string) when only the last byte differs, so the
running time does depend on the position of the first differing byte.
The mismatch itself is answered with 401 "Invalid API key" as claimed. -/
theorem handleAuth_api_key_compare_short_circuits :
    ("Xk_secret000" : String) ≠ "ak_secret000" ∧
    ("ak_secret00X" : String) ≠ "ak_secret000" ∧
    ("Xk_secret000" : String).length = ("ak_secret00X" : String).length ∧
    strCmpSteps "ak_secret000".data "Xk_secret000".data = 1 ∧
    strCmpSteps "ak_secret000".data "ak_secret00X".data = 12 ∧
    (handleAuth ⟨[], 3600, 300⟩ storeC3 bodyC3 (fun _ _ _ => true)
        (fun _ => 0) 0).1 =
      .httpError 401 "Invalid API key" := by
  refine ⟨by decide, by decide, by decide, by decide, by decide, ?_⟩
  decide

/-- The `AgentRecord` that `complete_registration` builds from pending
entry `p` (12 entropy bytes for `agent_id`, the next 24 for `api_key`). -/
def mintedAgentRecord (p : PendingRegistration) (rng : Nat → Nat)
    (now : Int) : AgentRecord :=
  ⟨"agent_" ++ token_urlsafe (drawBytes rng 0 12), p.agent_name,
   p.public_key, "ak_" ++ token_urlsafe (drawBytes rng 12 24), p.scopes, now⟩

/-- The store state after `complete_registration` consumes pending entry
`p` stored under `rid`. -/
def completedStore (st : InMemoryAgentStore) (rid : String)
    (p : PendingRegistration) (rng : Nat → Nat) (now : Int) :
    InMemoryAgentStore :=
  { st with
    pending := eraseA st.pending rid,
    agents := insertA st.agents (mintedAgentRecord p rng now).agent_id
      (mintedAgentRecord p rng now),
    agents_by_api_key := insertA st.agents_by_api_key
      (mintedAgentRecord p rng now).api_key (mintedAgentRecord p rng now) }

theorem complete_registration_eq (st : InMemoryAgentStore) (rid : String)
    (rng : Nat → Nat) (now : Int) (p : PendingRegistration)
    (h : lookupA st.pending rid = some p) :
    complete_registration st rid rng now =
      .ok (mintedAgentRecord p rng now, completedStore st rid p rng now) := by
  simp [complete_registration, h, mintedAgentRecord, completedStore]

/-- C1: the verify handler answers 404 when no pending registration
exists for the id; 400 leaving the store unchanged on a challenge
mismatch; 401 leaving the store unchanged when the signature fails
against the stored public key; and on success removes the pending
entry, persists an `AgentRecord`, returns its `{agent_id, api_key}`,
after which any verify with the same `registration_id` answers 404. -/
theorem handleVerify_semantics
    (st : InMemoryAgentStore) (body : VerifyRequest)
    (verifySig : String → String → String → Bool) (rng : Nat → Nat)
    (now : Int) :
    (lookupA st.pending body.registration_id = none →
      handleVerify st body verifySig rng now =
        (.httpError 404 "Registration not found or expired", st)) ∧
    (∀ p, lookupA st.pending body.registration_id = some p →
      body.challenge ≠ p.challenge →
      handleVerify st body verifySig rng now =
        (.httpError 400 "Challenge mismatch", st)) ∧
    (∀ p, lookupA st.pending body.registration_id = some p →
      body.challenge = p.challenge →
      verifySig body.challenge body.signature p.public_key = false →
      handleVerify st body verifySig rng now =
        (.httpError 401 "Invalid signature", st)) ∧
    (∀ p, lookupA st.pending body.registration_id = some p →
      body.challenge = p.challenge →
      verifySig body.challenge body.signature p.public_key = true →
      ∃ rec st',
        handleVerify st body verifySig rng now =
          (.ok ⟨rec.agent_id, rec.api_key⟩, st') ∧
        lookupA st'.agents rec.agent_id = some rec ∧
        lookupA st'.pending body.registration_id = none ∧
        (∀ (body2 : VerifyRequest)
            (vs2 : String → String → String → Bool) (rng2 : Nat → Nat)
            (now2 : Int),
          body2.registration_id = body.registration_id →
          (handleVerify st' body2 vs2 rng2 now2).1 =
            .httpError 404 "Registration not found or expired")) := by
  refine ⟨?_, ?_, ?_, ?_⟩
  · intro h
    simp [handleVerify, get_pending_registration, h]
  · intro p h hne
    simp [handleVerify, get_pending_registration, h, hne]
  · intro p h hc hs
    rw [hc] at hs
    simp [handleVerify, get_pending_registration, h, hc, hs]
  · intro p h hc hs
    rw [hc] at hs
    have hcr := complete_registration_eq st body.registration_id rng now p h
    refine ⟨mintedAgentRecord p rng now,
      completedStore st body.registration_id p rng now, ?_, ?_, ?_, ?_⟩
    · simp [handleVerify, get_pending_registration, h, hc, hs, hcr]
    · rw [completedStore]
      simp only []
      rw [lookupA_insertA]
      simp
    · rw [completedStore]
      simp only []
      simp [lookupA_eraseA]
    · intro body2 vs2 rng2 now2 hid
      have hnone : lookupA (completedStore st body.registration_id p rng
          now).pending body2.registration_id = none := by
        rw [completedStore]
        simp only []
        rw [lookupA_eraseA, if_pos hid]
      simp [handleVerify, get_pending_registration, hnone]

def pendC1 : PendingRegistration := ⟨"reg_c1", "a1", "pk1", "ch1", ["read"], 0⟩

def storeC1 : InMemoryAgentStore := ⟨[("reg_c1", pendC1)], [], [], []⟩

def bodyC1 : VerifyRequest := ⟨"reg_c1", "ch1", "sig1"⟩

theorem handleVerify_semantics_witness :
    (handleVerify emptyStore bodyC1 (fun _ _ _ => true) (fun _ => 0) 0 =
      (.httpError 404 "Registration not found or expired", emptyStore)) ∧
    (handleVerify storeC1 ⟨"reg_c1", "wrong", "sig1"⟩ (fun _ _ _ => true)
        (fun _ => 0) 0 =
      (.httpError 400 "Challenge mismatch", storeC1)) ∧
    (handleVerify storeC1 bodyC1 (fun _ _ _ => false) (fun _ => 0) 0 =
      (.httpError 401 "Invalid signature", storeC1)) ∧
    ∃ rec st',
      handleVerify storeC1 bodyC1 (fun _ _ _ => true) (fun _ => 0) 0 =
        (.ok ⟨rec.agent_id, rec.api_key⟩, st') ∧
      lookupA st'.agents rec.agent_id = some rec ∧
      lookupA st'.pending "reg_c1" = none ∧
      (handleVerify st' bodyC1 (fun _ _ _ => true) (fun _ => 0) 0).1 =
        .httpError 404 "Registration not found or expired" := by
  refine ⟨(handleVerify_semantics emptyStore bodyC1 (fun _ _ _ => true)
      (fun _ => 0) 0).1 rfl,
    (handleVerify_semantics storeC1 ⟨"reg_c1", "wrong", "sig1"⟩
      (fun _ _ _ => true) (fun _ => 0) 0).2.1 pendC1 rfl (by decide),
    (handleVerify_semantics storeC1 bodyC1 (fun _ _ _ => false)
      (fun _ => 0) 0).2.2.1 pendC1 rfl rfl rfl, ?_⟩
  obtain ⟨rec, st', heq, hagents, hpending, hagain⟩ :=
    (handleVerify_semantics storeC1 bodyC1 (fun _ _ _ => true)
      (fun _ => 0) 0).2.2.2 pendC1 rfl rfl rfl
  exact ⟨rec, st', heq, hagents, hpending,
    hagain bodyC1 (fun _ _ _ => true) (fun _ => 0) 0 rfl⟩

/-- C6: when the configured scope whitelist is non-empty and a register
request names a scope outside it the handler answers 400 with exactly
the offending names, sorted ascending, in one message, leaving the
store unchanged; when the whitelist is empty every request is accepted. -/
theorem handleRegister_scope_whitelist
    (cfg : AgentDoorConfig) (st : InMemoryAgentStore)
    (body : RegistrationRequest) (rng : Nat → Nat) (now : Int) :
    (∀ s0, cfg.scopes.map (fun sd => sd.name) ≠ [] →
      s0 ∈ body.scopes → s0 ∉ cfg.scopes.map (fun sd => sd.name) →
      ∃ offenders,
        handleRegister cfg st body rng now =
          (.httpError 400 ("Invalid scopes: " ++ joinComma offenders), st) ∧
        offenders.Sorted (· ≤ ·) ∧
        (∀ s, s ∈ offenders ↔
          s ∈ body.scopes ∧ s ∉ cfg.scopes.map (fun sd => sd.name))) ∧
    (cfg.scopes.map (fun sd => sd.name) = [] →
      ∃ resp st', handleRegister cfg st body rng now = (.ok resp, st')) := by
  constructor
  · intro s0 hne hs0 hout
    have hmem : s0 ∈ pySortedSet (body.scopes.filter
        (fun s => decide (s ∉ cfg.scopes.map (fun sd => sd.name)))) := by
      rw [mem_pySortedSet, List.mem_filter]
      exact ⟨hs0, by simpa using hout⟩
    refine ⟨pySortedSet (body.scopes.filter
        (fun s => decide (s ∉ cfg.scopes.map (fun sd => sd.name)))),
      ?_, sorted_pySortedSet _, ?_⟩
    · rw [handleRegister]
      rw [if_pos ⟨hne, List.ne_nil_of_mem hmem⟩]
    · intro s
      rw [mem_pySortedSet, List.mem_filter]
      simp
  · intro h
    refine ⟨⟨(create_pending_registration st body.agent_name body.public_key
          body.scopes rng now).1.registration_id,
        (create_pending_registration st body.agent_name body.public_key
          body.scopes rng now).1.challenge⟩,
      (create_pending_registration st body.agent_name body.public_key
        body.scopes rng now).2, ?_⟩
    rw [handleRegister, if_neg (by simp [h])]

def cfgC6 : AgentDoorConfig := ⟨[⟨"read", "r"⟩, ⟨"write", "w"⟩], 3600, 300⟩

def bodyC6 : RegistrationRequest := ⟨"a6", "pk6", ["zadmin", "admin", "read"]⟩

theorem handleRegister_scope_whitelist_witness :
    (∃ offenders,
      handleRegister cfgC6 emptyStore bodyC6 (fun _ => 0) 0 =
        (.httpError 400 ("Invalid scopes: " ++ joinComma offenders),
         emptyStore) ∧
      offenders.Sorted (· ≤ ·) ∧
      "admin" ∈ offenders ∧ "read" ∉ offenders) ∧
    (∃ resp st',
      handleRegister ⟨[], 3600, 300⟩ emptyStore bodyC6 (fun _ => 0) 0 =
        (.ok resp, st')) := by
  constructor
  · obtain ⟨off, heq, hsort, hmem⟩ :=
      (handleRegister_scope_whitelist cfgC6 emptyStore bodyC6
        (fun _ => 0) 0).1 "admin" (by decide) (by decide) (by decide)
    refine ⟨off, heq, hsort, (hmem "admin").mpr ⟨by decide, by decide⟩, ?_⟩
    intro hr
    exact absurd ((hmem "read").mp hr).2 (by decide)
  · exact (handleRegister_scope_whitelist ⟨[], 3600, 300⟩ emptyStore bodyC6
      (fun _ => 0) 0).2 rfl

/-- C7: for a request carrying a valid unexpired token and a non-empty
required scope list, the guard proceeds and yields the agent context
when every required name is among the token's scopes (and the agent
record exists), and answers 403 listing exactly the missing names,
sorted ascending, when some required name is absent. -/
theorem agentRequired_scope_gating
    (st : InMemoryAgentStore) (token : String) (r : TokenRecord)
    (now : Int) (reqScopes : List String)
    (hlook : lookupA st.tokens token = some r)
    (hfresh : ¬ now > r.expires_at)
    (hne : reqScopes ≠ []) :
    ((∀ s ∈ reqScopes, s ∈ r.scopes) →
      ∀ a, lookupA st.agents r.agent_id = some a →
        agentRequired st (some reqScopes) (some ("Bearer " ++ token)) now =
          (.ok ⟨a.agent_id, a.agent_name, r.scopes⟩, st)) ∧
    ((∃ s, s ∈ reqScopes ∧ s ∉ r.scopes) →
      ∃ missing,
        agentRequired st (some reqScopes) (some ("Bearer " ++ token)) now =
          (.httpError 403 ("Missing required scopes: " ++ joinComma missing),
           st) ∧
        missing.Sorted (· ≤ ·) ∧
        (∀ s, s ∈ missing ↔ s ∈ reqScopes ∧ s ∉ r.scopes)) := by
  have hgt : get_token st token now = (some r, st) := by
    simp [get_token, hlook, hfresh]
  constructor
  · intro hsub a ha
    have hf : reqScopes.filter (fun s => decide (s ∉ r.scopes)) = [] := by
      rw [List.filter_eq_nil_iff]
      intro s hs
      simp [hsub s hs]
    rw [agentRequired]
    simp only [Option.getD_some]
    rw [if_neg (by simp [bearer_ne_empty, pyStartswith_bearer]),
      pySliceFrom_bearer, hgt]
    have hf2 : List.filter (fun s => !decide (s ∈ r.scopes)) reqScopes = [] := by
      simpa using hf
    simp [hf2, pySortedSet, pySorted, get_agent, ha]
  · rintro ⟨s0, hs0, hout⟩
    have hmem : s0 ∈ pySortedSet (reqScopes.filter
        (fun s => decide (s ∉ r.scopes))) := by
      rw [mem_pySortedSet, List.mem_filter]
      exact ⟨hs0, by simpa using hout⟩
    refine ⟨pySortedSet (reqScopes.filter (fun s => decide (s ∉ r.scopes))),
      ?_, sorted_pySortedSet _, ?_⟩
    · rw [agentRequired]
      simp only [Option.getD_some]
      rw [if_neg (by simp [bearer_ne_empty, pyStartswith_bearer]),
        pySliceFrom_bearer, hgt]
      simp only [Option.getD_some]
      rw [if_pos ⟨hne, List.ne_nil_of_mem hmem⟩]
    · intro s
      rw [mem_pySortedSet, List.mem_filter]
      simp

def tokenC7 : TokenRecord := ⟨"agt_t7", "agent_7", 100, ["read", "write"]⟩

def agentC7 : AgentRecord :=
  ⟨"agent_7", "a7", "pk7", "ak_7", ["read", "write"], 0⟩

def storeC7 : InMemoryAgentStore :=
  ⟨[], [("agent_7", agentC7)], [("ak_7", agentC7)], [("agt_t7", tokenC7)]⟩

theorem agentRequired_scope_gating_witness :
    (agentRequired storeC7 (some ["read"]) (some ("Bearer " ++ "agt_t7")) 50 =
      (.ok ⟨agentC7.agent_id, agentC7.agent_name, tokenC7.scopes⟩, storeC7)) ∧
    (∃ missing,
      agentRequired storeC7 (some ["admin"])
          (some ("Bearer " ++ "agt_t7")) 50 =
        (.httpError 403 ("Missing required scopes: " ++ joinComma missing),
         storeC7) ∧
      "admin" ∈ missing) := by
  constructor
  · exact (agentRequired_scope_gating storeC7 "agt_t7" tokenC7 50 ["read"]
      rfl (by decide) (by decide)).1 (by decide) agentC7 rfl
  · obtain ⟨missing, heq, _, hmem⟩ :=
      (agentRequired_scope_gating storeC7 "agt_t7" tokenC7 50 ["admin"]
        rfl (by decide) (by decide)).2 ⟨"admin", by decide, by decide⟩
    exact ⟨missing, heq, (hmem "admin").mpr ⟨by decide, by decide⟩⟩

/-- An entropy stream of constant bytes. -/
def rngC2a : Nat → Nat := fun _ => 7

/-- The same stream with byte 20 changed — a difference inside the first
32 bytes of CSPRNG output. -/
def rngC2b : Nat → Nat := fun i => if i = 20 then 9 else 7

/-- C2 is refuted for `registration_id`: were the id derived from at
least 32 bytes of CSPRNG entropy, changing byte 20 of the stream would
change it; the code draws only `secrets.token_urlsafe(16)`
(`regIdEntropyBytes = 16`), so the two streams below — equal on bytes
0–15, different at byte 20 — mint the same `registration_id` even
though the register responses as a whole differ (the challenge, which
does consume bytes 16–47, changes). -/
theorem registration_id_entropy_cex :
    regIdEntropyBytes = 16 ∧
    ¬ 32 ≤ regIdEntropyBytes ∧
    rngC2a 20 ≠ rngC2b 20 ∧
    (create_pending_registration emptyStore "a2" "pk2" [] rngC2a
        0).1.registration_id =
      (create_pending_registration emptyStore "a2" "pk2" [] rngC2b
        0).1.registration_id ∧
    (create_pending_registration emptyStore "a2" "pk2" [] rngC2a
        0).1.challenge ≠
      (create_pending_registration emptyStore "a2" "pk2" [] rngC2b
        0).1.challenge := by
  refine ⟨rfl, by decide, by decide, ?_, ?_⟩
  · decide
  · decide

/-- C2 (amended): for every accepted register request the minted
`registration_id` is `"reg_"` followed by the URL-safe base64 encoding
of 16 bytes of CSPRNG output, the minted `challenge` is the URL-safe
base64 encoding of the following 32 bytes, every character of both lies
in the base64url alphabet, a `PendingRegistration` with exactly these
fields is persisted, and `{registration_id, challenge}` is returned
with status 200. -/
theorem handleRegister_minting
    (cfg : AgentDoorConfig) (st : InMemoryAgentStore)
    (body : RegistrationRequest) (rng : Nat → Nat) (now : Int)
    (hacc : cfg.scopes.map (fun sd => sd.name) = [] ∨
      ∀ s ∈ body.scopes, s ∈ cfg.scopes.map (fun sd => sd.name)) :
    handleRegister cfg st body rng now =
      (.ok ⟨"reg_" ++ token_urlsafe (drawBytes rng 0 regIdEntropyBytes),
            token_urlsafe
              (drawBytes rng regIdEntropyBytes challengeEntropyBytes)⟩,
       ⟨insertA st.pending
          ("reg_" ++ token_urlsafe (drawBytes rng 0 regIdEntropyBytes))
          ⟨"reg_" ++ token_urlsafe (drawBytes rng 0 regIdEntropyBytes),
           body.agent_name, body.public_key,
           token_urlsafe
             (drawBytes rng regIdEntropyBytes challengeEntropyBytes),
           body.scopes, now⟩,
        st.agents, st.agents_by_api_key, st.tokens⟩) ∧
    (drawBytes rng 0 regIdEntropyBytes).length = 16 ∧
    (drawBytes rng regIdEntropyBytes challengeEntropyBytes).length = 32 ∧
    (∀ c ∈ ("reg_" ++
        token_urlsafe (drawBytes rng 0 regIdEntropyBytes)).data,
      isB64Char c = true) ∧
    (∀ c ∈ (token_urlsafe
        (drawBytes rng regIdEntropyBytes challengeEntropyBytes)).data,
      isB64Char c = true) := by
  have hcond : ¬ (cfg.scopes.map (fun sd => sd.name) ≠ [] ∧
      pySortedSet (body.scopes.filter
        (fun s => decide (s ∉ cfg.scopes.map (fun sd => sd.name)))) ≠ []) := by
    rintro ⟨hne2, hinv⟩
    rcases hacc with h | h
    · exact hne2 h
    · apply hinv
      have hf : body.scopes.filter
          (fun s => decide (s ∉ cfg.scopes.map (fun sd => sd.name))) = [] := by
        rw [List.filter_eq_nil_iff]
        intro s hs
        simp [h s hs]
      rw [hf]
      simp [pySortedSet, pySorted]
  refine ⟨?_, ?_, ?_, ?_, ?_⟩
  · rw [handleRegister, if_neg hcond]
    rfl
  · simp [drawBytes, regIdEntropyBytes]
  · simp [drawBytes, challengeEntropyBytes]
  · intro c hc
    rw [String.data_append] at hc
    rcases List.mem_append.mp hc with h | h
    · exact (by decide : ∀ c0 ∈ "reg_".data, isB64Char c0 = true) c h
    · exact b64urlEncode_valid _ c h
  · intro c hc
    exact b64urlEncode_valid _ c hc

theorem handleRegister_minting_witness :
    (drawBytes (fun _ => 5) 0 regIdEntropyBytes).length = 16 ∧
    (∀ c ∈ ("reg_" ++
        token_urlsafe (drawBytes (fun _ => 5) 0 regIdEntropyBytes)).data,
      isB64Char c = true) ∧
    ∃ resp st',
      handleRegister ⟨[], 3600, 300⟩ emptyStore ⟨"aw", "pkw", ["x"]⟩
        (fun _ => 5) 0 = (.ok resp, st') := by
  have h := handleRegister_minting ⟨[], 3600, 300⟩ emptyStore
    ⟨"aw", "pkw", ["x"]⟩ (fun _ => 5) 0 (Or.inl rfl)
  exact ⟨h.2.1, h.2.2.2.1, _, _, h.1⟩

theorem authenticate_ok_of_api_key (cred : Credential) (ttl now : Int)
    (sign : String → String → String) (resp : AuthServerResponse)
    (ak : String) (hak : cred.api_key = some ak) :
    ∃ o, Agent.authenticate cred ttl now sign resp = .ok o ∧
      (authCredAfter cred o).api_key = some ak := by
  by_cases hv : cred.is_token_valid now
  · exact ⟨.cached (cred.token.getD ""),
      by simp [Agent.authenticate, hak, hv],
      by simpa [authCredAfter] using hak⟩
  · refine ⟨.refreshed ⟨cred.agent_id, ak, toString now,
        sign (toString now) cred.secret_key⟩
      { cred with token := some resp.token,
                  token_expires_at := some (now + resp.expires_in.getD ttl) }
      resp.token, ?_, ?_⟩
    · simp [Agent.authenticate, hak, hv]
    · simpa [authCredAfter] using hak

/-- C8: on a credential holding an api_key, `authenticate` returns the
cached token with no network round-trip whenever a token is present and
`now < token_expires_at - 30`; otherwise it signs the stringified
current integer timestamp, posts `{agent_id, api_key, timestamp,
signature}`, stores the token with expiry `now + expires_in` (the
response's `expires_in`, defaulting to the discovery document's
`token_ttl_seconds` when absent) on the credential it saves, and
returns the fresh token. -/
theorem authenticate_cached_or_refresh
    (cred : Credential) (ttl now : Int) (sign : String → String → String)
    (resp : AuthServerResponse) (ak : String)
    (hak : cred.api_key = some ak) :
    (∀ t e, cred.token = some t → cred.token_expires_at = some e →
      now < e - 30 →
      Agent.authenticate cred ttl now sign resp = .ok (.cached t)) ∧
    (cred.is_token_valid now = false →
      Agent.authenticate cred ttl now sign resp =
        .ok (.refreshed
          ⟨cred.agent_id, ak, toString now,
           sign (toString now) cred.secret_key⟩
          { cred with token := some resp.token,
                      token_expires_at :=
                        some (now + resp.expires_in.getD ttl) }
          resp.token)) := by
  constructor
  · intro t e ht he hlt
    have hv : cred.is_token_valid now = true := by
      simp [Credential.is_token_valid, ht, he, hlt]
    simp [Agent.authenticate, hak, hv, ht]
  · intro hv
    simp [Agent.authenticate, hak, hv]

def credC8 : Credential :=
  ⟨"https://s8", "agent_8", "pk8", "sk8", some "ak_8", some "tok8",
   some 1000, ["read"]⟩

theorem authenticate_cached_or_refresh_witness :
    Agent.authenticate credC8 3600 100 (fun m k => m ++ k)
      ⟨"newtok", none⟩ = .ok (.cached "tok8") ∧
    Agent.authenticate credC8 3600 999 (fun m k => m ++ k)
      ⟨"newtok", none⟩ =
      .ok (.refreshed
        ⟨"agent_8", "ak_8", toString (999 : Int),
         (fun (m k : String) => m ++ k) (toString (999 : Int)) "sk8"⟩
        { credC8 with token := some "newtok",
                      token_expires_at :=
                        some (999 + (none : Option Int).getD 3600) }
        "newtok") := by
  constructor
  · exact (authenticate_cached_or_refresh credC8 3600 100
      (fun m k => m ++ k) ⟨"newtok", none⟩ "ak_8" rfl).1 "tok8" 1000 rfl rfl
      (by decide)
  · exact (authenticate_cached_or_refresh credC8 3600 999
      (fun m k => m ++ k) ⟨"newtok", none⟩ "ak_8" rfl).2 (by decide)

/-- C9: `request` retries exactly when the first response is 401 — it
then clears the cached token and expiry, authenticates once more,
resends once, and returns whatever the second response is (even another
401: the trace has exactly two attempts); every other first response is
returned unchanged after a single attempt. -/
theorem request_retries_exactly_once_on_401
    (cred : Credential) (ttl now : Int) (sign : String → String → String)
    (authResp : Nat → AuthServerResponse)
    (send : Nat → String → HttpxResponse) (ak : String)
    (hak : cred.api_key = some ak) :
    ∃ o1, Agent.authenticate cred ttl now sign (authResp 0) = .ok o1 ∧
      (((send 0 (authToken o1)).status_code = 401 →
        ∃ o2, Agent.authenticate (clearToken (authCredAfter cred o1)) ttl
            now sign (authResp 1) = .ok o2 ∧
          (clearToken (authCredAfter cred o1)).token = none ∧
          (clearToken (authCredAfter cred o1)).token_expires_at = none ∧
          Agent.request cred ttl now sign authResp send =
            .ok ([authToken o1, authToken o2], send 1 (authToken o2),
              authCredAfter (clearToken (authCredAfter cred o1)) o2)) ∧
      ((send 0 (authToken o1)).status_code ≠ 401 →
        Agent.request cred ttl now sign authResp send =
          .ok ([authToken o1], send 0 (authToken o1),
            authCredAfter cred o1))) := by
  obtain ⟨o1, ho1, hkeep⟩ :=
    authenticate_ok_of_api_key cred ttl now sign (authResp 0) ak hak
  refine ⟨o1, ho1, ?_, ?_⟩
  · intro h401
    have hak2 : (clearToken (authCredAfter cred o1)).api_key = some ak := by
      simpa [clearToken] using hkeep
    obtain ⟨o2, ho2, _⟩ := authenticate_ok_of_api_key
      (clearToken (authCredAfter cred o1)) ttl now sign (authResp 1) ak hak2
    refine ⟨o2, ho2, rfl, rfl, ?_⟩
    rw [Agent.request, ho1]
    simp only [h401, if_pos]
    rw [ho2]
  · intro hne
    rw [Agent.request, ho1]
    simp [hne]

def credC9 : Credential :=
  ⟨"https://s9", "agent_9", "pk9", "sk9", some "ak_9", none, none, []⟩

theorem request_retries_exactly_once_on_401_witness :
    (∃ o1 o2,
      Agent.request credC9 3600 0 (fun m k => m ++ k)
        (fun _ => ⟨"tok", none⟩)
        (fun i _ => if i = 0 then ⟨401, "first"⟩ else ⟨200, "second"⟩) =
        .ok ([authToken o1, authToken o2],
          (⟨200, "second"⟩ : HttpxResponse),
          authCredAfter (clearToken (authCredAfter credC9 o1)) o2)) ∧
    (∃ o3,
      Agent.request credC9 3600 0 (fun m k => m ++ k)
        (fun _ => ⟨"tok", none⟩)
        (fun _ _ => ⟨500, "err"⟩) =
        .ok ([authToken o3], (⟨500, "err"⟩ : HttpxResponse),
          authCredAfter credC9 o3)) := by
  constructor
  · obtain ⟨o1, ho1, hbranch, _⟩ :=
      request_retries_exactly_once_on_401 credC9 3600 0 (fun m k => m ++ k)
        (fun _ => ⟨"tok", none⟩)
        (fun i _ => if i = 0 then ⟨401, "first"⟩ else ⟨200, "second"⟩)
        "ak_9" rfl
    obtain ⟨o2, _, _, _, heq⟩ := hbranch rfl
    exact ⟨o1, o2, heq⟩
  · obtain ⟨o1, ho1, _, hother⟩ :=
      request_retries_exactly_once_on_401 credC9 3600 0 (fun m k => m ++ k)
        (fun _ => ⟨"tok", none⟩) (fun _ _ => ⟨500, "err"⟩) "ak_9" rfl
    exact ⟨o1, hother (by decide)⟩
